import Mathlib

/-!
Verification of the spreadsheet-backed data-access layer and short-link
resolver of the QR / URL-shortener application.

The embedding models text as `List Char` (JS strings). It covers:
* `parseCSVRows` / `parseCSVData` — the CSV row splitter and record
  validator of `SheetsDataService` (`src/lib/sheets-data-service.ts`);
* `fetchSheetData`, `findUrlById`, `clearCache` — the caching fetch
  orchestration, modelled as an explicit state-passing step function;
* `isValidIdFormat` / `handleRoute` — the resolver (`src/lib/router.ts`).

The platform URL parser (`new URL(...)`) is not part of the repository;
every definition that needs it takes a `validUrl : List Char → Bool`
parameter standing for the `isValidUrl` check.
-/

namespace QrSpec

/-- Shorthand: the character list backing a string literal. -/
def strL (s : String) : List Char := s.data

/-- Whitespace as removed by JS `String.prototype.trim` (ASCII range). -/
def isWS (c : Char) : Bool :=
  c = ' ' || c = '\t' || c = '\n' || c = '\r' ||
  c = Char.ofNat 11 || c = Char.ofNat 12

/-- Model of JS `trim()`: drop whitespace from both ends. -/
def jsTrim (s : List Char) : List Char :=
  ((s.dropWhile isWS).reverse.dropWhile isWS).reverse

/-- A parsed CSV row: a list of field strings. -/
abbrev Row := List (List Char)

/-- `currentRow.some(field => field.trim())`: the row has a field whose
trimmed value is non-empty. -/
def rowNonBlank (row : Row) : Bool :=
  row.any (fun f => !(jsTrim f).isEmpty)

/-- Append a finished row to the accumulated rows, dropping it when every
field is blank (the splitter's "Only add non-empty rows" filter). -/
def pushRow (rows : List Row) (row : Row) : List Row :=
  if rowNonBlank row then rows ++ [row] else rows

/-- State machine of `parseCSVRows` (`src/lib/sheets-data-service.ts:241`):
one pass over the characters with the parser state
`(inQuotes, currentField, currentRow, rows)` made explicit.
`"` toggles quote state, `""` inside quotes is an escaped quote, `,`
separates fields outside quotes, `\n`, `\r` and the pair `\r\n` separate
rows outside quotes. -/
def parseAux : Bool → List Char → Row → List Row → List Char → List Row
  | _, field, row, rows, [] => pushRow rows (row ++ [field])
  | inQ, field, row, rows, '"' :: rest =>
      if inQ then
        match rest with
        | '"' :: rest2 => parseAux true (field ++ ['"']) row rows rest2
        | other => parseAux false field row rows other
      else parseAux true field row rows rest
  | inQ, field, row, rows, ',' :: rest =>
      if inQ then parseAux inQ (field ++ [',']) row rows rest
      else parseAux inQ [] (row ++ [field]) rows rest
  | inQ, field, row, rows, '\n' :: rest =>
      if inQ then parseAux inQ (field ++ ['\n']) row rows rest
      else parseAux inQ [] [] (pushRow rows (row ++ [field])) rest
  | inQ, field, row, rows, '\r' :: rest =>
      if inQ then parseAux inQ (field ++ ['\r']) row rows rest
      else
        match rest with
        | '\n' :: rest2 => parseAux false [] [] (pushRow rows (row ++ [field])) rest2
        | other => parseAux false [] [] (pushRow rows (row ++ [field])) other
  | inQ, field, row, rows, c :: rest => parseAux inQ (field ++ [c]) row rows rest
termination_by structural _ _ _ _ l => l

/-- `parseCSVRows`: split CSV text into rows of fields. -/
def parseCSVRows (csvText : List Char) : List Row :=
  parseAux false [] [] [] csvText

/-- `URLRecord` (`src/lib/sheets-data-service.ts:6`). -/
structure URLRecord where
  id : List Char
  «to» : List Char
  description : List Char
deriving DecidableEq, Repr

/-- The error taxonomy: `SheetsNetworkError`, `SheetsDataError`,
`SheetsAuthError` and the generic base `SheetsServiceError`. -/
inductive ErrClass where
  | networkE
  | dataE
  | authE
  | serviceE
deriving DecidableEq, Repr

/-- A thrown service error: its class together with its message. -/
structure SheetsErr where
  kind : ErrClass
  msg : List Char
deriving DecidableEq, Repr

deriving instance DecidableEq for Except

/-- JS `Array.prototype.join(', ')` on a list of strings. -/
def joinComma (xs : List (List Char)) : List Char :=
  (xs.intersperse (strL ", ")).flatten

/-- Normalize a header cell: `h.toLowerCase().trim()`. -/
def normHeader (h : List Char) : List Char :=
  jsTrim (h.map Char.toLower)

/-- The header check of `parseCSVData`: the first expected column name
(`id`, `to`, `description`, in that order) missing from the normalized
headers, or `none` when all are present. -/
def firstMissing (normalized : List (List Char)) : Option (List Char) :=
  if !(normalized.contains (strL "id")) then some (strL "id")
  else if !(normalized.contains (strL "to")) then some (strL "to")
  else if !(normalized.contains (strL "description")) then some (strL "description")
  else none

/-- Index of a name in the normalized headers (`indexOf`; only used after
the presence check succeeded). -/
def colIndex (normalized : List (List Char)) (name : List Char) : Nat :=
  normalized.findIdx (fun h => h == name)

/-- Validation of one data row (`parseCSVData`, loop body at
`src/lib/sheets-data-service.ts:187`): skip blank rows, rows with too few
columns, rows with empty `id`/`to` after trim, and rows whose destination
fails the URL check; otherwise produce the record. -/
def rowRecord (validUrl : List Char → Bool) (idI toI dI : Nat)
    (values : Row) : Option URLRecord :=
  if values.all (fun v => (jsTrim v).isEmpty) then none
  else if values.length ≤ max idI (max toI dI) then none
  else
    let id := jsTrim (values.getD idI [])
    let toF := jsTrim (values.getD toI [])
    let description := jsTrim (values.getD dI [])
    if id.isEmpty || toF.isEmpty then none
    else if !(validUrl toF) then none
    else some ⟨id, toF, description⟩

/-- The data rows surviving validation, in order. -/
def collectRecords (validUrl : List Char → Bool) (idI toI dI : Nat)
    (rows : List Row) : List URLRecord :=
  rows.filterMap (rowRecord validUrl idI toI dI)

/-- `parseCSVData` (`src/lib/sheets-data-service.ts:154`): split into rows,
validate the header by name lookup, validate each data row, and fail with a
`SheetsDataError` on empty input, on fewer than two rows, on a missing
column, or when no data row survives. -/
def parseCSVData (validUrl : List Char → Bool) (csvText : List Char) :
    Except SheetsErr (List URLRecord) :=
  if csvText.isEmpty then
    .error ⟨.dataE, strL "Invalid CSV data: empty or non-string input"⟩
  else
    let rows := parseCSVRows csvText
    if rows.length < 2 then
      .error ⟨.dataE, strL "Invalid CSV data: must contain at least header and one data row"⟩
    else
      let headers := rows.headD []
      let normalizedHeaders := headers.map normHeader
      match firstMissing normalizedHeaders with
      | some missing =>
          .error ⟨.dataE, strL "Missing required column: " ++ missing ++
            strL ". Found columns: " ++ joinComma headers⟩
      | none =>
          let idIndex := colIndex normalizedHeaders (strL "id")
          let toIndex := colIndex normalizedHeaders (strL "to")
          let descriptionIndex := colIndex normalizedHeaders (strL "description")
          let records := collectRecords validUrl idIndex toIndex descriptionIndex rows.tail
          if records.isEmpty then
            .error ⟨.dataE, strL "No valid records found in CSV data"⟩
          else .ok records


/-- A simple concrete stand-in for the platform URL check, used to
instantiate `validUrl` in concrete evaluations: accepts strings starting
with `http://` or `https://`. -/
def demoValidUrl (s : List Char) : Bool :=
  (strL "http://").isPrefixOf s || (strL "https://").isPrefixOf s

/-! ### CSV serialization with standard quoting (spec section 8, round-trip) -/

/-- Double every embedded quote (standard CSV escaping). -/
def escQuote (f : List Char) : List Char :=
  f.flatMap (fun c => if c = '"' then ['"', '"'] else [c])

/-- Quote a field: wrap in quotes with embedded quotes doubled. -/
def quoteField (f : List Char) : List Char := '"' :: (escQuote f ++ ['"'])

/-- The record field named by a column header. -/
def fieldOfCol (r : URLRecord) (col : List Char) : List Char :=
  if col = strL "id" then r.id
  else if col = strL "to" then r.«to»
  else r.description

/-- One serialized CSV line: the record's fields in the order given by
`cols`, each quoted, joined by commas. -/
def serializeRowCols (cols : List (List Char)) (r : URLRecord) : List Char :=
  List.intercalate [','] (cols.map (fun col => quoteField (fieldOfCol r col)))

/-- A serialized record set: header row naming the columns, then one quoted
line per record, rows separated by a newline. -/
def serializeCSVCols (cols : List (List Char)) (records : List URLRecord) : List Char :=
  List.intercalate [','] cols ++ records.flatMap (fun r => '\n' :: serializeRowCols cols r)

/-- Serialization in the reference column order `id,to,description`. -/
def serializeCSV (records : List URLRecord) : List Char :=
  serializeCSVCols [strL "id", strL "to", strL "description"] records

/-- Characters with no special CSV meaning. -/
def plainChar (c : Char) : Prop := c ≠ '"' ∧ c ≠ ',' ∧ c ≠ '\n' ∧ c ≠ '\r'

instance (c : Char) : Decidable (plainChar c) := by
  unfold plainChar
  infer_instance

/-- A record the validator cannot distinguish from its serialized form:
non-empty trim-invariant `id`, non-empty trim-invariant destination accepted
by the URL check, trim-invariant description. -/
def WellFormed (validUrl : List Char → Bool) (r : URLRecord) : Prop :=
  r.id ≠ [] ∧ jsTrim r.id = r.id ∧ r.«to» ≠ [] ∧ jsTrim r.«to» = r.«to» ∧
  validUrl r.«to» = true ∧ jsTrim r.description = r.description

instance (validUrl : List Char → Bool) (r : URLRecord) :
    Decidable (WellFormed validUrl r) := by
  unfold WellFormed
  infer_instance


/-! ### Resolver (`src/lib/router.ts`) -/

/-- Terminal outcome of one `handleRoute` navigation. -/
inductive RouteOutcome where
  | noop
  | notFound404
  | redirected (url : List Char)
  | errorShown (msg : List Char)
deriving DecidableEq, Repr

/-- The character class `[a-zA-Z0-9]` of the id regex. -/
def isAlphanumAscii (c : Char) : Bool :=
  ('a' ≤ c && c ≤ 'z') || ('A' ≤ c && c ≤ 'Z') || ('0' ≤ c && c ≤ '9')

/-- `isValidIdFormat` (`src/lib/router.ts:132`): the test of the regex
`[a-zA-Z0-9]` repeated 6 to 8 times, anchored at both ends. -/
def isValidIdFormat (id : List Char) : Bool :=
  6 ≤ id.length && id.length ≤ 8 && id.all isAlphanumAscii

/-- User-facing message shown when a looked-up destination fails the URL
check inside `redirect`. -/
def invalidDestMsg : List Char :=
  strL "Invalid destination URL. Please contact the link owner."

/-- The user-facing error message chosen by the `instanceof` chain in
`handleRoute`'s catch block, by error class. -/
def errorMessage (e : SheetsErr) : List Char :=
  match e.kind with
  | .authE => strL "접근 권한이 없습니다. 관리자에게 문의해 주세요."
  | .networkE => strL "인터넷 연결을 확인하고 다시 시도해 주세요."
  | .dataE => strL "데이터를 불러오는 중 문제가 발생했습니다. 잠시 후 다시 시도해 주세요."
  | .serviceE => strL "서비스에 일시적인 문제가 발생했습니다. 잠시 후 다시 시도해 주세요."

/-- `handleRoute` (`src/lib/router.ts:24`): root path is a no-op; otherwise
the candidate id is the path without its leading slash; a malformed id shows
the 404 page; otherwise `findUrlById` is consulted (the second component
counts those data-service calls): a found record redirects (after the
`redirect` helper re-validates the URL), an absent record shows 404, and a
thrown error shows the classified message. -/
def handleRoute (validUrl : List Char → Bool)
    (lookup : List Char → Except SheetsErr (Option URLRecord))
    (path : List Char) : RouteOutcome × Nat :=
  if path = strL "/" ∨ path = [] then (.noop, 0)
  else
    let id := path.drop 1
    if !(isValidIdFormat id) then (.notFound404, 0)
    else
      match lookup id with
      | .ok (some urlRecord) =>
          (if validUrl urlRecord.«to» then .redirected urlRecord.«to»
           else .errorShown invalidDestMsg, 1)
      | .ok none => (.notFound404, 1)
      | .error e => (.errorShown (errorMessage e), 1)

/-! ### Caching fetch orchestration (`fetchSheetData` and friends)

`fetchSheetData` is asynchronous stateful code; it is embedded as a step
function over an explicit state `(cachedData, lastFetchTime)`, taking the
current time and the outcome of the (single) network fetch attempt as
inputs and returning the call's result, the new state, and how many fetch
calls were performed. -/

/-- The mutable fields of `SheetsDataService`. -/
structure ServiceState where
  cachedData : Option (List URLRecord)
  lastFetchTime : Int
deriving DecidableEq, Repr

/-- `CACHE_DURATION = 5 * 60 * 1000` milliseconds. -/
def CACHE_DURATION : Int := 5 * 60 * 1000

/-- A JS exception thrown by `fetch` itself (not one of the service's own
error classes): a `TypeError`, some other `Error`, or a non-`Error` value. -/
inductive ThrownErr where
  | typeErr (msg : List Char)
  | otherErr (msg : List Char)
  | nonError
deriving DecidableEq, Repr

/-- Outcome of the `fetch` call: an OK response with a body, a non-OK
response with its status, or a thrown exception. -/
inductive FetchOutcome where
  | ok (body : List Char)
  | notOk (status : Nat) (statusText : List Char)
  | threw (e : ThrownErr)
deriving DecidableEq, Repr

/-- What the `catch` block can receive: one of the service's own errors, or
a raw JS exception. -/
inductive CaughtErr where
  | sheets (e : SheetsErr)
  | js (e : ThrownErr)
deriving DecidableEq, Repr

/-- HTTP status classification of a non-OK response
(`src/lib/sheets-data-service.ts:80`): 403 auth, 404 data, 5xx generic
service, anything else network. -/
def classifyStatus (status : Nat) (statusText : List Char) : SheetsErr :=
  if status = 403 then
    ⟨.authE, strL "Google Sheets access denied: " ++ strL (toString status) ++
      [' '] ++ statusText ++ strL ". The sheet may not be publicly accessible."⟩
  else if status = 404 then
    ⟨.dataE, strL "Google Sheet not found: " ++ strL (toString status) ++
      [' '] ++ statusText ++ strL ". Please check the sheet ID."⟩
  else if 500 ≤ status then
    ⟨.serviceE, strL "Google Sheets service error: " ++ strL (toString status) ++
      [' '] ++ statusText ++ strL ". Please try again later."⟩
  else
    ⟨.networkE, strL "Failed to fetch sheet data: " ++ strL (toString status) ++
      [' '] ++ statusText⟩

/-- The `try` block of `fetchSheetData`: perform the fetch, classify a
non-OK status, reject an empty body, and parse the CSV. -/
def tryFetchParse (validUrl : List Char → Bool) (fetch : FetchOutcome) :
    Except CaughtErr (List URLRecord) :=
  match fetch with
  | .threw e => .error (.js e)
  | .notOk status statusText => .error (.sheets (classifyStatus status statusText))
  | .ok body =>
      if (jsTrim body).isEmpty then
        .error (.sheets ⟨.dataE, strL "Received empty response from Google Sheets. The sheet may be empty or inaccessible."⟩)
      else
        match parseCSVData validUrl body with
        | .error e => .error (.sheets e)
        | .ok parsedData => .ok parsedData

/-- JS `String.prototype.includes`: `needle` occurs somewhere in `hay`. -/
def jsIncludes (hay needle : List Char) : Bool :=
  match hay with
  | [] => needle.isEmpty
  | c :: t => needle.isPrefixOf (c :: t) || jsIncludes t needle

/-- `error instanceof SheetsNetworkError`. -/
def isNetworkInstance : CaughtErr → Bool
  | .sheets e => e.kind = .networkE
  | .js _ => false

/-- `error instanceof SheetsServiceError`. Every one of the service's error
classes extends `SheetsServiceError` (the prototype chains are set up in
their constructors), so this is true of every `SheetsErr`, whatever its
kind — including `SheetsDataError` and `SheetsAuthError`. -/
def isServiceInstance : CaughtErr → Bool
  | .sheets _ => true
  | .js _ => false

/-- Result of one `fetchSheetData` call: the value returned or error
thrown, the service state afterwards, and the number of network fetches
performed. -/
structure FetchStep where
  result : Except SheetsErr (List URLRecord)
  state : ServiceState
  fetchCalls : Nat
deriving DecidableEq, Repr

/-- `fetchSheetData` (`src/lib/sheets-data-service.ts:65`): return cached
data while the cache is younger than `CACHE_DURATION`; otherwise fetch and
parse, updating the cache on success; on failure, serve cached data when
the caught error satisfies the `instanceof SheetsNetworkError ||
instanceof SheetsServiceError` test, re-throw the service's own errors
otherwise, and wrap raw JS exceptions (a `TypeError` whose message
mentions `fetch` becomes a network error; other errors are wrapped as
generic service errors). -/
def fetchSheetData (st : ServiceState) (now : Int) (validUrl : List Char → Bool)
    (fetch : FetchOutcome) : FetchStep :=
  if st.cachedData.isSome && decide (now - st.lastFetchTime < CACHE_DURATION) then
    ⟨.ok (st.cachedData.getD []), st, 0⟩
  else
    match tryFetchParse validUrl fetch with
    | .ok parsedData => ⟨.ok parsedData, ⟨some parsedData, now⟩, 1⟩
    | .error err =>
        if st.cachedData.isSome && (isNetworkInstance err || isServiceInstance err) then
          ⟨.ok (st.cachedData.getD []), st, 1⟩
        else
          match err with
          | .sheets e => ⟨.error e, st, 1⟩
          | .js (.typeErr msg) =>
              if jsIncludes msg (strL "fetch") then
                ⟨.error ⟨.networkE, strL "Network error: Unable to connect to Google Sheets. Please check your internet connection."⟩, st, 1⟩
              else
                ⟨.error ⟨.serviceE, strL "Google Sheets fetch failed: " ++ msg⟩, st, 1⟩
          | .js (.otherErr msg) =>
              ⟨.error ⟨.serviceE, strL "Google Sheets fetch failed: " ++ msg⟩, st, 1⟩
          | .js .nonError =>
              ⟨.error ⟨.serviceE, strL "Unknown error occurred while fetching Google Sheets data"⟩, st, 1⟩

/-- `findUrlById` (`src/lib/sheets-data-service.ts:137`): fetch the data
(with caching) and linearly scan for the first record with the given id;
`none` when absent; errors are re-thrown unchanged. -/
def findUrlById (st : ServiceState) (now : Int) (validUrl : List Char → Bool)
    (fetch : FetchOutcome) (id : List Char) :
    Except SheetsErr (Option URLRecord) × ServiceState × Nat :=
  let step := fetchSheetData st now validUrl fetch
  match step.result with
  | .ok recs => (.ok (recs.find? (fun urlRecord => urlRecord.id == id)), step.state, step.fetchCalls)
  | .error e => (.error e, step.state, step.fetchCalls)

/-- `clearCache` (`src/lib/sheets-data-service.ts:357`). -/
def clearCache (_st : ServiceState) : ServiceState := ⟨none, 0⟩

/-! ### Classic-Mac line-ending transformation -/

/-- Replace every row-separating (unquoted) `\n` by a lone `\r`, tracking
the quote state exactly as the splitter does. -/
def nlToCr : Bool → List Char → List Char
  | _, [] => []
  | inQ, '"' :: rest =>
      if inQ then
        match rest with
        | '"' :: rest2 => '"' :: '"' :: nlToCr true rest2
        | other => '"' :: nlToCr false other
      else '"' :: nlToCr true rest
  | inQ, '\n' :: rest =>
      if inQ then '\n' :: nlToCr inQ rest else '\r' :: nlToCr inQ rest
  | inQ, c :: rest => c :: nlToCr inQ rest
termination_by structural _ l => l

/-! ## Theorems -/

/-! ### Single-step unfolding lemmas for the row splitter -/

theorem parseAux_nil (inQ field row rows) :
    parseAux inQ field row rows [] = pushRow rows (row ++ [field]) := rfl

theorem parseAux_quote_open (field row rows rest) :
    parseAux false field row rows ('"' :: rest) = parseAux true field row rows rest := by
  rw [parseAux.eq_def]
  rfl

theorem parseAux_quote_esc (field row rows rest) :
    parseAux true field row rows ('"' :: '"' :: rest) =
      parseAux true (field ++ ['"']) row rows rest := by
  simp [parseAux]

theorem parseAux_quote_close (field row rows rest) (h : rest.head? ≠ some '"') :
    parseAux true field row rows ('"' :: rest) = parseAux false field row rows rest := by
  cases rest with
  | nil => rfl
  | cons c r =>
    have hc : c ≠ '"' := by simpa using h
    simp [parseAux, hc]

theorem parseAux_comma_in (field row rows rest) :
    parseAux true field row rows (',' :: rest) =
      parseAux true (field ++ [',']) row rows rest := by
  simp [parseAux]

theorem parseAux_comma (field row rows rest) :
    parseAux false field row rows (',' :: rest) =
      parseAux false [] (row ++ [field]) rows rest := by
  simp [parseAux]

theorem parseAux_nl_in (field row rows rest) :
    parseAux true field row rows ('\n' :: rest) =
      parseAux true (field ++ ['\n']) row rows rest := by
  simp [parseAux]

theorem parseAux_nl (field row rows rest) :
    parseAux false field row rows ('\n' :: rest) =
      parseAux false [] [] (pushRow rows (row ++ [field])) rest := by
  simp [parseAux]

theorem parseAux_cr_in (field row rows rest) :
    parseAux true field row rows ('\r' :: rest) =
      parseAux true (field ++ ['\r']) row rows rest := by
  rw [parseAux.eq_def]
  rfl

theorem parseAux_crnl (field row rows rest) :
    parseAux false field row rows ('\r' :: '\n' :: rest) =
      parseAux false [] [] (pushRow rows (row ++ [field])) rest := by
  simp [parseAux]

theorem parseAux_cr (field row rows rest) (h : rest.head? ≠ some '\n') :
    parseAux false field row rows ('\r' :: rest) =
      parseAux false [] [] (pushRow rows (row ++ [field])) rest := by
  cases rest with
  | nil => rfl
  | cons c r =>
    have hc : c ≠ '\n' := by simpa using h
    simp [parseAux, hc]

theorem parseAux_plain (inQ field row rows c rest) (h1 : c ≠ '"') (h2 : c ≠ ',')
    (h3 : c ≠ '\n') (h4 : c ≠ '\r') :
    parseAux inQ field row rows (c :: rest) =
      parseAux inQ (field ++ [c]) row rows rest := by
  simp [parseAux, h1, h2, h3, h4]

/-! ### The splitter consumes serialized text as expected -/

theorem parseAux_any_in (field row rows c rest) (h : c ≠ '"') :
    parseAux true field row rows (c :: rest) =
      parseAux true (field ++ [c]) row rows rest := by
  by_cases h2 : c = ','
  · subst h2
    exact parseAux_comma_in field row rows rest
  · by_cases h3 : c = '\n'
    · subst h3
      exact parseAux_nl_in field row rows rest
    · by_cases h4 : c = '\r'
      · subst h4
        exact parseAux_cr_in field row rows rest
      · exact parseAux_plain true field row rows c rest h h2 h3 h4

theorem parseAux_escQuote (f : List Char) : ∀ (field : List Char) (row : Row)
    (rows : List Row) (rest : List Char), rest.head? ≠ some '"' →
    parseAux true field row rows (escQuote f ++ '"' :: rest) =
      parseAux false (field ++ f) row rows rest := by
  induction f with
  | nil =>
    intro field row rows rest h
    simpa [escQuote] using parseAux_quote_close field row rows rest h
  | cons c f ih =>
    intro field row rows rest h
    by_cases hc : c = '"'
    · subst hc
      have : escQuote ('"' :: f) = '"' :: '"' :: escQuote f := by
        simp [escQuote]
      rw [this]
      rw [List.cons_append, List.cons_append, parseAux_quote_esc]
      rw [ih (field ++ ['"']) row rows rest h]
      simp
    · have : escQuote (c :: f) = c :: escQuote f := by
        simp [escQuote, hc]
      rw [this, List.cons_append, parseAux_any_in _ _ _ _ _ hc]
      rw [ih (field ++ [c]) row rows rest h]
      simp

theorem parseAux_quoteField (f field row rows rest) (h : rest.head? ≠ some '"') :
    parseAux false field row rows (quoteField f ++ rest) =
      parseAux false (field ++ f) row rows rest := by
  have : quoteField f ++ rest = '"' :: (escQuote f ++ '"' :: rest) := by
    simp [quoteField]
  rw [this, parseAux_quote_open, parseAux_escQuote f field row rows rest h]

theorem parseAux_seg (seg : List Char) : ∀ (field : List Char) (row : Row)
    (rows : List Row) (l : List Char), (∀ c ∈ seg, plainChar c) →
    parseAux false field row rows (seg ++ l) = parseAux false (field ++ seg) row rows l := by
  induction seg with
  | nil => intro field row rows l _; simp
  | cons c seg ih =>
    intro field row rows l h
    obtain ⟨h1, h2, h3, h4⟩ := h c (by simp)
    rw [List.cons_append, parseAux_plain false field row rows c _ h1 h2 h3 h4]
    rw [ih (field ++ [c]) row rows l (fun d hd => h d (by simp [hd]))]
    simp


theorem intercalate3 (a b c : List Char) :
    List.intercalate [','] [a, b, c] = a ++ ',' :: (b ++ ',' :: c) := by
  simp [List.intercalate, List.intersperse]

theorem parse_row3 (a b c : List Char) (row : Row) (rows : List Row)
    (rest : List Char) (h : rest.head? ≠ some '"') :
    parseAux false [] row rows
        (quoteField a ++ ',' :: (quoteField b ++ ',' :: (quoteField c ++ rest)))
      = parseAux false c (row ++ [a, b]) rows rest := by
  rw [parseAux_quoteField a [] row rows _ (by simp)]
  simp only [List.nil_append]
  rw [parseAux_comma]
  rw [parseAux_quoteField b [] (row ++ [a]) rows _ (by simp)]
  simp only [List.nil_append]
  rw [parseAux_comma]
  rw [parseAux_quoteField c [] (row ++ [a] ++ [b]) rows rest h]
  simp

theorem flatMap_rows_head (cols : List (List Char)) (records : List URLRecord) (c : Char)
    (hc : c ≠ '\n') :
    (records.flatMap (fun r => '\n' :: serializeRowCols cols r)).head? ≠ some c := by
  cases records with
  | nil => simp
  | cons r rest => simp [List.flatMap, Ne.symm hc]

theorem parseAux_records (c1 c2 c3 : List Char) :
    ∀ (records : List URLRecord) (field : List Char) (row : Row) (rows : List Row),
    (∀ r ∈ records, rowNonBlank [fieldOfCol r c1, fieldOfCol r c2, fieldOfCol r c3] = true) →
    parseAux false field row rows
        (records.flatMap (fun r => '\n' :: serializeRowCols [c1, c2, c3] r))
      = pushRow rows (row ++ [field]) ++
          records.map (fun r => [fieldOfCol r c1, fieldOfCol r c2, fieldOfCol r c3]) := by
  intro records
  induction records with
  | nil =>
    intro field row rows _
    simp [parseAux_nil]
  | cons r rest ih =>
    intro field row rows h
    have hflat : (r :: rest).flatMap (fun r => '\n' :: serializeRowCols [c1, c2, c3] r)
        = '\n' :: (serializeRowCols [c1, c2, c3] r ++
            rest.flatMap (fun r => '\n' :: serializeRowCols [c1, c2, c3] r)) := by
      simp [List.flatMap]
    rw [hflat, parseAux_nl]
    have hrow : serializeRowCols [c1, c2, c3] r ++
            rest.flatMap (fun r => '\n' :: serializeRowCols [c1, c2, c3] r)
        = quoteField (fieldOfCol r c1) ++ ',' :: (quoteField (fieldOfCol r c2) ++
            ',' :: (quoteField (fieldOfCol r c3) ++
              rest.flatMap (fun r => '\n' :: serializeRowCols [c1, c2, c3] r))) := by
      simp [serializeRowCols, intercalate3]
    rw [hrow, parse_row3 _ _ _ _ _ _ (flatMap_rows_head [c1, c2, c3] rest '"' (by decide))]
    simp only [List.nil_append]
    rw [ih (fieldOfCol r c3) [fieldOfCol r c1, fieldOfCol r c2]
          (pushRow rows (row ++ [field])) (fun q hq => h q (List.mem_cons_of_mem r hq))]
    have hpush : pushRow (pushRow rows (row ++ [field]))
          ([fieldOfCol r c1, fieldOfCol r c2] ++ [fieldOfCol r c3])
        = pushRow rows (row ++ [field]) ++
            [[fieldOfCol r c1, fieldOfCol r c2, fieldOfCol r c3]] := by
      simp [pushRow, h r (List.mem_cons_self r rest)]
    rw [hpush]
    simp

theorem parseCSVRows_serializeCSVCols (c1 c2 c3 : List Char) (records : List URLRecord)
    (hp1 : ∀ c ∈ c1, plainChar c) (hp2 : ∀ c ∈ c2, plainChar c)
    (hp3 : ∀ c ∈ c3, plainChar c)
    (hnb : rowNonBlank [c1, c2, c3] = true)
    (hrec : ∀ r ∈ records, rowNonBlank [fieldOfCol r c1, fieldOfCol r c2, fieldOfCol r c3] = true) :
    parseCSVRows (serializeCSVCols [c1, c2, c3] records)
      = [c1, c2, c3] :: records.map (fun r => [fieldOfCol r c1, fieldOfCol r c2, fieldOfCol r c3]) := by
  unfold parseCSVRows serializeCSVCols
  rw [intercalate3]
  have hshape : (c1 ++ ',' :: (c2 ++ ',' :: c3)) ++
        records.flatMap (fun r => '\n' :: serializeRowCols [c1, c2, c3] r)
      = c1 ++ ',' :: (c2 ++ ',' :: (c3 ++
          records.flatMap (fun r => '\n' :: serializeRowCols [c1, c2, c3] r))) := by
    simp
  rw [hshape]
  rw [parseAux_seg c1 [] [] [] _ hp1]
  try simp only [List.nil_append, List.cons_append, List.singleton_append]
  rw [parseAux_comma]
  try simp only [List.nil_append, List.cons_append, List.singleton_append]
  rw [parseAux_seg c2 [] [c1] [] _ hp2]
  try simp only [List.nil_append, List.cons_append, List.singleton_append]
  rw [parseAux_comma]
  try simp only [List.nil_append, List.cons_append, List.singleton_append]
  rw [parseAux_seg c3 [] [c1, c2] [] _ hp3]
  try simp only [List.nil_append, List.cons_append, List.singleton_append]
  rw [parseAux_records c1 c2 c3 records c3 [c1, c2] [] hrec]
  simp [pushRow, hnb]


/-! ### Record validation on serialized rows -/

theorem rowRecord_wf (validUrl : List Char → Bool) (idI toI dI : Nat)
    (r : URLRecord) (values : Row)
    (hlen : values.length = 3) (hmax : max idI (max toI dI) < 3)
    (hid : values.getD idI [] = r.id) (hto : values.getD toI [] = r.«to»)
    (hd : values.getD dI [] = r.description)
    (hmem : r.id ∈ values)
    (hwf : WellFormed validUrl r) :
    rowRecord validUrl idI toI dI values = some r := by
  obtain ⟨hne, hidt, htne, htot, hurl, hdt⟩ := hwf
  have hblank : values.all (fun v => (jsTrim v).isEmpty) = false := by
    rw [List.all_eq_false]
    exact ⟨r.id, hmem, by simp [hidt, hne]⟩
  have hcols : ¬(values.length ≤ max idI (max toI dI)) := by
    rw [hlen]
    exact Nat.not_le.mpr hmax
  have hidv : jsTrim (values.getD idI []) = r.id := by rw [hid, hidt]
  have htov : jsTrim (values.getD toI []) = r.«to» := by rw [hto, htot]
  have hdv : jsTrim (values.getD dI []) = r.description := by rw [hd, hdt]
  simp only [List.getD_eq_getElem?_getD] at hidv htov hdv
  simp [rowRecord, hblank, hcols, hidv, htov, hdv, hne, htne, hurl,
    List.isEmpty_iff]

theorem collectRecords_map (validUrl : List Char → Bool) (idI toI dI : Nat)
    (g : URLRecord → Row) :
    ∀ (records : List URLRecord),
    (∀ r ∈ records, rowRecord validUrl idI toI dI (g r) = some r) →
    collectRecords validUrl idI toI dI (records.map g) = records := by
  intro records
  induction records with
  | nil => intro _; simp [collectRecords]
  | cons r rest ih =>
    intro h
    have hr := h r (List.mem_cons_self r rest)
    have hrest := ih (fun q hq => h q (List.mem_cons_of_mem r hq))
    simp only [List.map_cons, collectRecords, List.filterMap_cons, hr]
    simpa [collectRecords] using hrest

/-- Master round-trip lemma: a record set serialized with quoted fields
under a three-column header parses back to itself, for any column
arrangement whose name lookup resolves to the given indices. -/
theorem parseCSVData_roundtrip (validUrl : List Char → Bool)
    (c1 c2 c3 : List Char) (idI toI dI : Nat) (records : List URLRecord)
    (hp1 : ∀ c ∈ c1, plainChar c) (hp2 : ∀ c ∈ c2, plainChar c)
    (hp3 : ∀ c ∈ c3, plainChar c)
    (hnbHdr : rowNonBlank [c1, c2, c3] = true)
    (hmiss : firstMissing [normHeader c1, normHeader c2, normHeader c3] = none)
    (hidI : colIndex [normHeader c1, normHeader c2, normHeader c3] (strL "id") = idI)
    (htoI : colIndex [normHeader c1, normHeader c2, normHeader c3] (strL "to") = toI)
    (hdI : colIndex [normHeader c1, normHeader c2, normHeader c3] (strL "description") = dI)
    (hmax : max idI (max toI dI) < 3)
    (hfid : ∀ r : URLRecord,
      [fieldOfCol r c1, fieldOfCol r c2, fieldOfCol r c3].getD idI [] = r.id)
    (hfto : ∀ r : URLRecord,
      [fieldOfCol r c1, fieldOfCol r c2, fieldOfCol r c3].getD toI [] = r.«to»)
    (hfd : ∀ r : URLRecord,
      [fieldOfCol r c1, fieldOfCol r c2, fieldOfCol r c3].getD dI [] = r.description)
    (hfmem : ∀ r : URLRecord, r.id ∈ [fieldOfCol r c1, fieldOfCol r c2, fieldOfCol r c3])
    (hwf : ∀ r ∈ records, WellFormed validUrl r)
    (hne : records ≠ []) :
    parseCSVData validUrl (serializeCSVCols [c1, c2, c3] records) = .ok records := by
  have hrnb : ∀ r ∈ records,
      rowNonBlank [fieldOfCol r c1, fieldOfCol r c2, fieldOfCol r c3] = true := by
    intro r hr
    obtain ⟨hne', hidt, _, _, _, _⟩ := hwf r hr
    rw [rowNonBlank, List.any_eq_true]
    exact ⟨r.id, hfmem r, by simp [hidt, hne']⟩
  have hrows := parseCSVRows_serializeCSVCols c1 c2 c3 records hp1 hp2 hp3 hnbHdr hrnb
  have hempty : (serializeCSVCols [c1, c2, c3] records).isEmpty = false := by
    unfold serializeCSVCols
    rw [intercalate3]
    cases c1 <;> simp
  have hcollect : collectRecords validUrl idI toI dI
      (records.map (fun r => [fieldOfCol r c1, fieldOfCol r c2, fieldOfCol r c3]))
      = records := by
    apply collectRecords_map
    intro r hr
    exact rowRecord_wf validUrl idI toI dI r _ (by simp) hmax (hfid r) (hfto r)
      (hfd r) (hfmem r) (hwf r hr)
  have hlen2 : ¬(([c1, c2, c3] ::
      records.map (fun r => [fieldOfCol r c1, fieldOfCol r c2, fieldOfCol r c3])).length < 2) := by
    have : 0 < records.length := List.length_pos.mpr hne
    simp only [List.length_cons, List.length_map]
    omega
  have hrecne : records.isEmpty = false := by
    simp [List.isEmpty_iff, hne]
  unfold parseCSVData
  rw [hempty]
  simp only [Bool.false_eq_true, if_false]
  rw [hrows]
  rw [if_neg hlen2]
  simp only [List.headD_cons, List.tail_cons, List.map_cons, List.map_nil]
  rw [hmiss, hidI, htoI, hdI, hcollect, hrecne]
  simp


/-! ### Service-layer theorems -/

/-- C7: the resolver accepts an id iff it is 6 to 8 ASCII alphanumeric
characters: length-5 and length-9 ids are rejected, mixed-case length-6 and
length-8 ids are accepted, `abc-123` is rejected; and on any non-root path
whose extracted id fails the format check, `handleRoute` shows the 404
outcome and performs zero data-service calls. -/
theorem C7_id_format_gate :
    (isValidIdFormat (strL "abcde") = false) ∧
    (isValidIdFormat (strL "abcdefghi") = false) ∧
    (isValidIdFormat (strL "aB3dE6") = true) ∧
    (isValidIdFormat (strL "aB3dE6f8") = true) ∧
    (isValidIdFormat (strL "abc-123") = false) ∧
    (∀ s : List Char, isValidIdFormat s = true ↔
      (6 ≤ s.length ∧ s.length ≤ 8 ∧ ∀ c ∈ s, isAlphanumAscii c = true)) ∧
    (∀ (validUrl : List Char → Bool)
       (lookup : List Char → Except SheetsErr (Option URLRecord)) (path : List Char),
       path ≠ strL "/" → path ≠ [] → isValidIdFormat (path.drop 1) = false →
       handleRoute validUrl lookup path = (.notFound404, 0)) := by
  refine ⟨by decide, by decide, by decide, by decide, by decide, ?_, ?_⟩
  · intro s
    simp [isValidIdFormat, List.all_eq_true, and_assoc]
  · intro validUrl lookup path h1 h2 h3
    unfold handleRoute
    rw [if_neg (not_or.mpr ⟨h1, h2⟩)]
    rw [List.drop_one] at h3
    simp [h3]

/-- C7 witness: the path `/abc` (3-character id) yields the 404 outcome
without any data-service call. -/
theorem C7_id_format_gate_witness :
    handleRoute demoValidUrl (fun _ => .ok none) (strL "/abc") = (.notFound404, 0) :=
  C7_id_format_gate.2.2.2.2.2.2 demoValidUrl (fun _ => .ok none) (strL "/abc")
    (by decide) (by decide) (by decide)

/-- C9: every operation either leaves `(cachedData, lastFetchTime)`
unchanged or replaces both together with the freshly parsed record set and
the current time; every error path leaves the state unchanged; `findUrlById`
changes state exactly as the underlying fetch does; `clearCache` resets both
fields. -/
theorem C9_atomic_cache_replacement :
    ∀ (st : ServiceState) (now : Int) (validUrl : List Char → Bool) (fetch : FetchOutcome),
      ((fetchSheetData st now validUrl fetch).state = st ∨
        ∃ recs, (fetchSheetData st now validUrl fetch).result = .ok recs ∧
          (fetchSheetData st now validUrl fetch).state = ⟨some recs, now⟩) ∧
      (∀ e, (fetchSheetData st now validUrl fetch).result = .error e →
        (fetchSheetData st now validUrl fetch).state = st) ∧
      (∀ id, (findUrlById st now validUrl fetch id).2.1 =
        (fetchSheetData st now validUrl fetch).state) ∧
      (∀ st' : ServiceState, clearCache st' = ⟨none, 0⟩) := by
  intro st now validUrl fetch
  have hfind : ∀ id, (findUrlById st now validUrl fetch id).2.1 =
      (fetchSheetData st now validUrl fetch).state := by
    intro id
    unfold findUrlById
    cases h : (fetchSheetData st now validUrl fetch).result <;> simp [h]
  refine ⟨?_, ?_, hfind, fun _ => rfl⟩ <;>
    · unfold fetchSheetData
      by_cases h1 : (st.cachedData.isSome &&
          decide (now - st.lastFetchTime < CACHE_DURATION)) = true
      · simp [h1]
      · rw [if_neg h1]
        cases htry : tryFetchParse validUrl fetch with
        | ok recs => simp
        | error err =>
          by_cases h2 : (st.cachedData.isSome &&
              (isNetworkInstance err || isServiceInstance err)) = true
          · simp [h2]
          · rcases err with e | tj
            · simp [h2]
            · rcases tj with msg | msg | _
              · by_cases h3 : jsIncludes msg (strL "fetch") = true <;> simp [h2, h3]
              · simp [h2]
              · simp [h2]

/-- C9 witness: with an empty cache and an HTTP 404 response, the error
path leaves the state unchanged. -/
theorem C9_atomic_cache_replacement_witness :
    (fetchSheetData ⟨none, 0⟩ 0 demoValidUrl (.notOk 404 (strL "NF"))).state = ⟨none, 0⟩ :=
  (C9_atomic_cache_replacement ⟨none, 0⟩ 0 demoValidUrl (.notOk 404 (strL "NF"))).2.1
    (classifyStatus 404 (strL "NF")) (by decide)

/-- C1 (code bug): an HTTP 403 refresh failure — a `SheetsAuthError` — with
stale cached records present does NOT propagate: the call returns the
cached records, because `SheetsAuthError instanceof SheetsServiceError`
makes the fallback test at `src/lib/sheets-data-service.ts:108` true. -/
theorem C1_auth_error_served_from_cache :
    (classifyStatus 403 (strL "Forbidden")).kind = .authE ∧
    (fetchSheetData ⟨some [⟨strL "abc123", strL "https://example.com", strL "Test"⟩], 0⟩
        (6 * 60 * 1000) demoValidUrl (.notOk 403 (strL "Forbidden"))).result =
      .ok [⟨strL "abc123", strL "https://example.com", strL "Test"⟩] := by
  constructor
  · decide
  · decide

/-- C2 (code bug): with a cache aged 20 minutes (past any stale ceiling) a
fetch is indeed performed, but when it fails with HTTP 404 — a
`SheetsDataError` — the expired cached records are still returned instead
of the error propagating. -/
theorem C2_expired_data_error_served_from_cache :
    (classifyStatus 404 (strL "Not Found")).kind = .dataE ∧
    (fetchSheetData ⟨some [⟨strL "abc123", strL "https://example.com", strL "Test"⟩], 0⟩
        (20 * 60 * 1000) demoValidUrl (.notOk 404 (strL "Not Found"))).fetchCalls = 1 ∧
    (fetchSheetData ⟨some [⟨strL "abc123", strL "https://example.com", strL "Test"⟩], 0⟩
        (20 * 60 * 1000) demoValidUrl (.notOk 404 (strL "Not Found"))).result =
      .ok [⟨strL "abc123", strL "https://example.com", strL "Test"⟩] := by
  refine ⟨by decide, by decide, by decide⟩

/-- C8 (code bug): with stale-but-recent cached records (age 6 minutes), a
transport-level network failure (the `fetch` promise rejecting with
`TypeError('Failed to fetch')`) does NOT fall back to the cached records:
the raw `TypeError` is not an instance of the service's error classes when
the fallback test runs, so the call throws a `SheetsNetworkError`. -/
theorem C8_transport_failure_not_served_from_cache :
    (fetchSheetData ⟨some [⟨strL "abc123", strL "https://example.com", strL "Test"⟩], 0⟩
        (6 * 60 * 1000) demoValidUrl (.threw (.typeErr (strL "Failed to fetch")))).result =
      .error ⟨.networkE, strL "Network error: Unable to connect to Google Sheets. Please check your internet connection."⟩ ∧
    (fetchSheetData ⟨some [⟨strL "abc123", strL "https://example.com", strL "Test"⟩], 0⟩
        (5 * 60 * 1000 - 1) demoValidUrl (.threw (.typeErr (strL "Failed to fetch")))).fetchCalls = 0 := by
  constructor
  · decide
  · decide


/-! ### Shape lemmas for `parseCSVData` -/

theorem parseCSVRows_nil : parseCSVRows ([] : List Char) = [] := rfl

theorem csv_nonempty_of_rows (csv : List Char) (hdr : List (List Char))
    (dataRows : List Row) (hrows : parseCSVRows csv = hdr :: dataRows) :
    csv.isEmpty = false := by
  cases csv with
  | nil =>
    rw [parseCSVRows_nil] at hrows
    exact absurd hrows (by simp)
  | cons c t => rfl

theorem parseCSVData_of_rows (validUrl : List Char → Bool) (csv : List Char)
    (hdr : List (List Char)) (dataRows : List Row)
    (hrows : parseCSVRows csv = hdr :: dataRows) (hne : dataRows ≠ [])
    (hmiss : firstMissing (hdr.map normHeader) = none) :
    parseCSVData validUrl csv =
      (if (collectRecords validUrl (colIndex (hdr.map normHeader) (strL "id"))
            (colIndex (hdr.map normHeader) (strL "to"))
            (colIndex (hdr.map normHeader) (strL "description")) dataRows).isEmpty
       then .error ⟨.dataE, strL "No valid records found in CSV data"⟩
       else .ok (collectRecords validUrl (colIndex (hdr.map normHeader) (strL "id"))
            (colIndex (hdr.map normHeader) (strL "to"))
            (colIndex (hdr.map normHeader) (strL "description")) dataRows)) := by
  have hempty := csv_nonempty_of_rows csv hdr dataRows hrows
  have hlen : ¬((hdr :: dataRows).length < 2) := by
    have : 0 < dataRows.length := List.length_pos.mpr hne
    simp only [List.length_cons]
    omega
  unfold parseCSVData
  rw [hempty]
  simp only [Bool.false_eq_true, if_false]
  rw [hrows, if_neg hlen]
  simp only [List.headD_cons, List.tail_cons]
  rw [hmiss]

theorem parseCSVData_missing_col (validUrl : List Char → Bool) (csv : List Char)
    (hdr : List (List Char)) (dataRows : List Row) (m : List Char)
    (hrows : parseCSVRows csv = hdr :: dataRows) (hne : dataRows ≠ [])
    (hmiss : firstMissing (hdr.map normHeader) = some m) :
    parseCSVData validUrl csv =
      .error ⟨.dataE, strL "Missing required column: " ++ m ++
        strL ". Found columns: " ++ joinComma hdr⟩ := by
  have hempty := csv_nonempty_of_rows csv hdr dataRows hrows
  have hlen : ¬((hdr :: dataRows).length < 2) := by
    have : 0 < dataRows.length := List.length_pos.mpr hne
    simp only [List.length_cons]
    omega
  unfold parseCSVData
  rw [hempty]
  simp only [Bool.false_eq_true, if_false]
  rw [hrows, if_neg hlen]
  simp only [List.headD_cons, List.tail_cons]
  rw [hmiss]

theorem firstMissing_names_missing (normalized : List (List Char)) (m : List Char)
    (h : firstMissing normalized = some m) :
    (m = strL "id" ∨ m = strL "to" ∨ m = strL "description") ∧
      normalized.contains m = false := by
  unfold firstMissing at h
  split_ifs at h with h1 h2 h3 <;>
    simp_all [Bool.not_eq_true']

theorem firstMissing_of_missing (normalized : List (List Char))
    (h : ¬(normalized.contains (strL "id") = true ∧
           normalized.contains (strL "to") = true ∧
           normalized.contains (strL "description") = true)) :
    ∃ m, firstMissing normalized = some m := by
  unfold firstMissing
  split_ifs with h1 h2 h3 <;> simp_all

/-! ### Claim theorems for the CSV layer -/

/-- C4 counterexample: a record whose description carries leading and
trailing blanks parses back with the description trimmed, so the round trip
is not the identity on that record. -/
theorem C4_roundtrip_counterexample :
    parseCSVData demoValidUrl
        (serializeCSV [⟨strL "abc123", strL "https://example.com", strL " x "⟩]) =
      .ok [⟨strL "abc123", strL "https://example.com", strL "x"⟩] ∧
    (⟨strL "abc123", strL "https://example.com", strL "x"⟩ : URLRecord) ≠
      ⟨strL "abc123", strL "https://example.com", strL " x "⟩ := by
  constructor
  · decide
  · decide

/-- C4 (amended): for every non-empty record set whose records have a
non-empty trim-invariant id, a non-empty trim-invariant destination
accepted by the URL check, and a trim-invariant description (which may
still contain embedded commas, quotes and newlines), serializing to quoted
CSV and parsing back yields the same records in the same order. -/
theorem C4_roundtrip (validUrl : List Char → Bool) (records : List URLRecord)
    (hwf : ∀ r ∈ records, WellFormed validUrl r) (hne : records ≠ []) :
    parseCSVData validUrl (serializeCSV records) = .ok records := by
  unfold serializeCSV
  exact parseCSVData_roundtrip validUrl _ _ _ 0 1 2 records (by decide) (by decide)
    (by decide) (by decide) (by decide) rfl rfl rfl (by decide)
    (fun r => rfl) (fun r => rfl) (fun r => rfl)
    (fun r => by simp [fieldOfCol]) hwf hne

/-- C4 witness: a record whose description embeds a comma, a doubled quote
and a newline survives the round trip unchanged. -/
theorem C4_roundtrip_witness :
    parseCSVData demoValidUrl
        (serializeCSV [⟨strL "abc123", strL "https://example.com", strL "a, \"q\"\nb"⟩]) =
      .ok [⟨strL "abc123", strL "https://example.com", strL "a, \"q\"\nb"⟩] :=
  C4_roundtrip demoValidUrl
    [⟨strL "abc123", strL "https://example.com", strL "a, \"q\"\nb"⟩]
    (by decide) (by decide)

/-- C5 counterexample: a CSV with a valid header and one entirely blank
data row is rejected with the fewer-than-two-rows data error, not the
claimed no-valid-records message, because the splitter drops blank rows
before the validator runs. -/
theorem C5_total_failure_counterexample :
    parseCSVData demoValidUrl (strL "id,to,description\n ,  ") =
      .error ⟨.dataE, strL "Invalid CSV data: must contain at least header and one data row"⟩ ∧
    strL "Invalid CSV data: must contain at least header and one data row" ≠
      strL "No valid records found in CSV data" := by
  constructor
  · decide
  · decide

/-- C5 (amended): when the split rows consist of a header passing the
column check plus at least one data row and every data row fails row
validation, `parseCSVData` raises the data error `No valid records found in
CSV data`; when instead every data row is blank, the splitter drops them
and the data error is the fewer-than-two-rows message (see the
counterexample); in no case does any input produce an empty record set. -/
theorem C5_total_failure (validUrl : List Char → Bool) :
    (∀ (csv : List Char) (hdr : List (List Char)) (dataRows : List Row),
       parseCSVRows csv = hdr :: dataRows → dataRows ≠ [] →
       firstMissing (hdr.map normHeader) = none →
       (∀ v ∈ dataRows,
         rowRecord validUrl (colIndex (hdr.map normHeader) (strL "id"))
           (colIndex (hdr.map normHeader) (strL "to"))
           (colIndex (hdr.map normHeader) (strL "description")) v = none) →
       parseCSVData validUrl csv =
         .error ⟨.dataE, strL "No valid records found in CSV data"⟩) ∧
    (∀ csv : List Char, parseCSVData validUrl csv ≠ .ok []) := by
  constructor
  · intro csv hdr dataRows hrows hne hmiss hfail
    rw [parseCSVData_of_rows validUrl csv hdr dataRows hrows hne hmiss]
    have : collectRecords validUrl (colIndex (hdr.map normHeader) (strL "id"))
        (colIndex (hdr.map normHeader) (strL "to"))
        (colIndex (hdr.map normHeader) (strL "description")) dataRows = [] := by
      unfold collectRecords
      exact List.filterMap_eq_nil_iff.mpr hfail
    rw [this]
    rfl
  · intro csv h
    simp only [parseCSVData] at h
    split at h
    · exact absurd h (by simp)
    · split at h
      · exact absurd h (by simp)
      · split at h
        · exact absurd h (by simp)
        · split at h
          · exact absurd h (by simp)
          · rename_i hc
            rw [Except.ok.injEq] at h
            exact hc (by rw [h]; rfl)

/-- C5 witness: a CSV whose single (non-blank) data row lacks a destination
triggers the no-valid-records data error. -/
theorem C5_total_failure_witness :
    parseCSVData demoValidUrl (strL "id,to,description\nabc123,,") =
      .error ⟨.dataE, strL "No valid records found in CSV data"⟩ :=
  (C5_total_failure demoValidUrl).1 (strL "id,to,description\nabc123,,")
    [strL "id", strL "to", strL "description"] [[strL "abc123", [], []]]
    (by decide) (by decide) (by decide) (by decide)


/-- C3 counterexample: a CSV of the claimed shape — valid header, five data
rows of which two lack a destination and one has the non-alphanumeric id
`abc-12` — parses to three records, not two: `parseCSVData` never checks
the id format, so the `abc-12` row is kept. -/
theorem C3_partial_failure_counterexample :
    parseCSVData demoValidUrl (strL "id,to,description\naaa111,https://a.com,ok1\nbbb222,,e1\nccc333,,e2\nabc-12,https://b.com,bad\nddd444,https://c.com,ok2") =
      .ok [⟨strL "aaa111", strL "https://a.com", strL "ok1"⟩,
           ⟨strL "abc-12", strL "https://b.com", strL "bad"⟩,
           ⟨strL "ddd444", strL "https://c.com", strL "ok2"⟩] ∧
    [(⟨strL "aaa111", strL "https://a.com", strL "ok1"⟩ : URLRecord),
     ⟨strL "abc-12", strL "https://b.com", strL "bad"⟩,
     ⟨strL "ddd444", strL "https://c.com", strL "ok2"⟩].length = 3 ∧
    isAlphanumAscii '-' = false := by
  refine ⟨by decide, by decide, by decide⟩

/-- C3 (amended): for a CSV with a valid header and five data rows of which
two have an empty `to` field and one a non-alphanumeric (but non-empty) id,
the other two being well-formed, `parseCSVData` returns exactly the three
rows with a non-empty destination — the non-alphanumeric-id row included,
since the id-format gate lives in the resolver, not in the parser. -/
theorem C3_partial_failure (validUrl : List Char → Bool) (r1 r2 r3 r4 r5 : URLRecord)
    (h1 : WellFormed validUrl r1) (h4 : WellFormed validUrl r4)
    (h5 : WellFormed validUrl r5)
    (h4bad : ∃ c ∈ r4.id, isAlphanumAscii c = false)
    (h2to : r2.«to» = []) (h2id : r2.id ≠ []) (h2idt : jsTrim r2.id = r2.id)
    (h3to : r3.«to» = []) (h3id : r3.id ≠ []) (h3idt : jsTrim r3.id = r3.id) :
    parseCSVData validUrl (serializeCSV [r1, r2, r3, r4, r5]) = .ok [r1, r4, r5] := by
  have hnb : ∀ r : URLRecord, r.id ≠ [] → jsTrim r.id = r.id →
      rowNonBlank [fieldOfCol r (strL "id"), fieldOfCol r (strL "to"),
        fieldOfCol r (strL "description")] = true := by
    intro r hn ht
    rw [rowNonBlank, List.any_eq_true]
    exact ⟨r.id, by simp [fieldOfCol], by simp [ht, hn]⟩
  have hrec : ∀ r ∈ [r1, r2, r3, r4, r5],
      rowNonBlank [fieldOfCol r (strL "id"), fieldOfCol r (strL "to"),
        fieldOfCol r (strL "description")] = true := by
    intro r hr
    simp only [List.mem_cons, List.mem_singleton] at hr
    rcases hr with rfl | rfl | rfl | rfl | rfl | hfalse
    · exact hnb r h1.1 h1.2.1
    · exact hnb r h2id h2idt
    · exact hnb r h3id h3idt
    · exact hnb r h4.1 h4.2.1
    · exact hnb r h5.1 h5.2.1
    · cases hfalse
  have hrows := parseCSVRows_serializeCSVCols (strL "id") (strL "to")
    (strL "description") [r1, r2, r3, r4, r5] (by decide) (by decide) (by decide)
    (by decide) hrec
  have foc_id : ∀ r : URLRecord, fieldOfCol r (strL "id") = r.id := fun r => rfl
  have foc_to : ∀ r : URLRecord, fieldOfCol r (strL "to") = r.«to» := fun r => rfl
  have foc_d : ∀ r : URLRecord, fieldOfCol r (strL "description") = r.description :=
    fun r => rfl
  simp only [List.map_cons, List.map_nil, foc_id, foc_to, foc_d] at hrows
  have hdrop : ∀ (r : URLRecord), r.«to» = [] →
      rowRecord validUrl 0 1 2 [r.id, r.«to», r.description] = none := by
    intro r hto
    simp only [rowRecord]
    split_ifs with hb hl he hv
    · rfl
    · rfl
    · rfl
    · rfl
    · exact absurd (by simp [hto, jsTrim]) he
  have e1 : rowRecord validUrl 0 1 2 [r1.id, r1.«to», r1.description] = some r1 :=
    rowRecord_wf validUrl 0 1 2 r1 _ (by simp) (by decide) rfl rfl rfl (by simp) h1
  have e2 := hdrop r2 h2to
  have e3 := hdrop r3 h3to
  have e4 : rowRecord validUrl 0 1 2 [r4.id, r4.«to», r4.description] = some r4 :=
    rowRecord_wf validUrl 0 1 2 r4 _ (by simp) (by decide) rfl rfl rfl (by simp) h4
  have e5 : rowRecord validUrl 0 1 2 [r5.id, r5.«to», r5.description] = some r5 :=
    rowRecord_wf validUrl 0 1 2 r5 _ (by simp) (by decide) rfl rfl rfl (by simp) h5
  have hcollect : collectRecords validUrl 0 1 2
      [[r1.id, r1.«to», r1.description], [r2.id, r2.«to», r2.description],
       [r3.id, r3.«to», r3.description], [r4.id, r4.«to», r4.description],
       [r5.id, r5.«to», r5.description]] = [r1, r4, r5] := by
    simp only [collectRecords, List.filterMap_cons, e1, e2, e3, e4, e5,
      List.filterMap_nil]
  rw [serializeCSV,
    parseCSVData_of_rows validUrl _ _ _ hrows (by simp) (by decide)]
  have hc0 : colIndex ([strL "id", strL "to", strL "description"].map normHeader)
      (strL "id") = 0 := by decide
  have hc1 : colIndex ([strL "id", strL "to", strL "description"].map normHeader)
      (strL "to") = 1 := by decide
  have hc2 : colIndex ([strL "id", strL "to", strL "description"].map normHeader)
      (strL "description") = 2 := by decide
  rw [hc0, hc1, hc2, hcollect]
  rfl

/-- C3 witness: a concrete instance of the amended five-row family parses
to its three destination-bearing records. -/
theorem C3_partial_failure_witness :
    parseCSVData demoValidUrl (serializeCSV
      [⟨strL "aaa111", strL "https://a.com", strL "ok1"⟩,
       ⟨strL "bbb222", [], strL "e1"⟩,
       ⟨strL "ccc333", [], strL "e2"⟩,
       ⟨strL "abc-12", strL "https://b.com", strL "bad"⟩,
       ⟨strL "ddd444", strL "https://c.com", strL "ok2"⟩]) =
    .ok [⟨strL "aaa111", strL "https://a.com", strL "ok1"⟩,
         ⟨strL "abc-12", strL "https://b.com", strL "bad"⟩,
         ⟨strL "ddd444", strL "https://c.com", strL "ok2"⟩] :=
  C3_partial_failure demoValidUrl _ _ _ _ _ (by decide) (by decide) (by decide)
    (by decide) (by decide) (by decide) (by decide) (by decide) (by decide) (by decide)


/-- C6: the header must contain `id`, `to` and `description`
case-insensitively after trimming — if any is missing, `parseCSVData`
raises a data error naming a genuinely missing required column and listing
the full found header row — and column order is irrelevant: for every
permutation of the three columns, serializing a record set under that
header order parses back to the same records, positions being resolved by
name lookup. -/
theorem C6_header_validation :
    (∀ (validUrl : List Char → Bool) (csv : List Char) (hdr : List (List Char))
       (dataRows : List Row) (e : List Char),
       parseCSVRows csv = hdr :: dataRows → dataRows ≠ [] →
       (e = strL "id" ∨ e = strL "to" ∨ e = strL "description") →
       (hdr.map normHeader).contains e = false →
       ∃ m, (m = strL "id" ∨ m = strL "to" ∨ m = strL "description") ∧
         (hdr.map normHeader).contains m = false ∧
         parseCSVData validUrl csv =
           .error ⟨.dataE, strL "Missing required column: " ++ m ++
             strL ". Found columns: " ++ joinComma hdr⟩) ∧
    (∀ cols : List (List Char),
       cols.Perm [strL "id", strL "to", strL "description"] →
       ∀ (validUrl : List Char → Bool) (records : List URLRecord),
         (∀ r ∈ records, WellFormed validUrl r) → records ≠ [] →
         parseCSVData validUrl (serializeCSVCols cols records) = .ok records) := by
  constructor
  · intro validUrl csv hdr dataRows e hrows hne he hmiss
    have hnotall : ¬((hdr.map normHeader).contains (strL "id") = true ∧
        (hdr.map normHeader).contains (strL "to") = true ∧
        (hdr.map normHeader).contains (strL "description") = true) := by
      rintro ⟨ha, hb, hc⟩
      rcases he with rfl | rfl | rfl
      · rw [hmiss] at ha
        exact Bool.noConfusion ha
      · rw [hmiss] at hb
        exact Bool.noConfusion hb
      · rw [hmiss] at hc
        exact Bool.noConfusion hc
    obtain ⟨m, hm⟩ := firstMissing_of_missing _ hnotall
    obtain ⟨hmE, hmC⟩ := firstMissing_names_missing _ m hm
    exact ⟨m, hmE, hmC, parseCSVData_missing_col validUrl csv hdr dataRows m hrows hne hm⟩
  · intro cols hperm validUrl records hwf hne
    have hlen := hperm.length_eq
    rcases cols with _ | ⟨x, cols⟩
    · simp at hlen
    rcases cols with _ | ⟨y, cols⟩
    · simp at hlen
    rcases cols with _ | ⟨z, cols⟩
    · simp at hlen
    rcases cols with _ | ⟨w, cols⟩
    swap
    · simp at hlen
    have hx : x ∈ [strL "id", strL "to", strL "description"] :=
      hperm.subset (by simp)
    have hy : y ∈ [strL "id", strL "to", strL "description"] :=
      hperm.subset (by simp)
    have hz : z ∈ [strL "id", strL "to", strL "description"] :=
      hperm.subset (by simp)
    simp only [List.mem_cons, List.mem_singleton, List.not_mem_nil, or_false] at hx hy hz
    rcases hx with rfl | rfl | rfl <;> rcases hy with rfl | rfl | rfl <;>
      rcases hz with rfl | rfl | rfl <;>
      first
        | exact absurd hperm (by decide)
        | exact parseCSVData_roundtrip validUrl _ _ _ 0 1 2 records (by decide)
            (by decide) (by decide) (by decide) (by decide) rfl rfl rfl (by decide)
            (fun r => rfl) (fun r => rfl) (fun r => rfl)
            (fun r => by simp [fieldOfCol]) hwf hne
        | exact parseCSVData_roundtrip validUrl _ _ _ 0 2 1 records (by decide)
            (by decide) (by decide) (by decide) (by decide) rfl rfl rfl (by decide)
            (fun r => rfl) (fun r => rfl) (fun r => rfl)
            (fun r => by simp [fieldOfCol]) hwf hne
        | exact parseCSVData_roundtrip validUrl _ _ _ 1 0 2 records (by decide)
            (by decide) (by decide) (by decide) (by decide) rfl rfl rfl (by decide)
            (fun r => rfl) (fun r => rfl) (fun r => rfl)
            (fun r => by simp [fieldOfCol]) hwf hne
        | exact parseCSVData_roundtrip validUrl _ _ _ 2 0 1 records (by decide)
            (by decide) (by decide) (by decide) (by decide) rfl rfl rfl (by decide)
            (fun r => rfl) (fun r => rfl) (fun r => rfl)
            (fun r => by simp [fieldOfCol]) hwf hne
        | exact parseCSVData_roundtrip validUrl _ _ _ 1 2 0 records (by decide)
            (by decide) (by decide) (by decide) (by decide) rfl rfl rfl (by decide)
            (fun r => rfl) (fun r => rfl) (fun r => rfl)
            (fun r => by simp [fieldOfCol]) hwf hne
        | exact parseCSVData_roundtrip validUrl _ _ _ 2 1 0 records (by decide)
            (by decide) (by decide) (by decide) (by decide) rfl rfl rfl (by decide)
            (fun r => rfl) (fun r => rfl) (fun r => rfl)
            (fun r => by simp [fieldOfCol]) hwf hne

/-- C6 witness: the header `id,url,desc` is rejected with a data error
naming the missing `to` column and listing the found headers, and the
permuted header `to,id,description` parses a concrete record identically to
the reference order. -/
theorem C6_header_validation_witness :
    (∃ m, (m = strL "id" ∨ m = strL "to" ∨ m = strL "description") ∧
       (([strL "id", strL "url", strL "desc"]).map normHeader).contains m = false ∧
       parseCSVData demoValidUrl (strL "id,url,desc\nabc123,https://example.com,Test") =
         .error ⟨.dataE, strL "Missing required column: " ++ m ++
           strL ". Found columns: " ++
             joinComma [strL "id", strL "url", strL "desc"]⟩) ∧
    parseCSVData demoValidUrl
        (serializeCSVCols [strL "to", strL "id", strL "description"]
          [⟨strL "abc123", strL "https://example.com", strL "Test"⟩]) =
      .ok [⟨strL "abc123", strL "https://example.com", strL "Test"⟩] :=
  ⟨C6_header_validation.1 demoValidUrl
      (strL "id,url,desc\nabc123,https://example.com,Test")
      [strL "id", strL "url", strL "desc"]
      [[strL "abc123", strL "https://example.com", strL "Test"]]
      (strL "to") (by decide) (by decide) (by decide) (by decide),
   C6_header_validation.2 [strL "to", strL "id", strL "description"] (by decide)
      demoValidUrl [⟨strL "abc123", strL "https://example.com", strL "Test"⟩]
      (by decide) (by decide)⟩


/-! ### Classic-Mac line endings: the transform agrees with the splitter -/

theorem nlToCr_quote_esc (rest : List Char) :
    nlToCr true ('"' :: '"' :: rest) = '"' :: '"' :: nlToCr true rest := by
  simp [nlToCr]

theorem nlToCr_quote_close (rest : List Char) (h : rest.head? ≠ some '"') :
    nlToCr true ('"' :: rest) = '"' :: nlToCr false rest := by
  cases rest with
  | nil => rfl
  | cons c r =>
    have hc : c ≠ '"' := by simpa using h
    simp [nlToCr, hc]

theorem nlToCr_quote_open (rest : List Char) :
    nlToCr false ('"' :: rest) = '"' :: nlToCr true rest := by
  rw [nlToCr.eq_def]
  rfl

theorem nlToCr_nl_in (rest : List Char) :
    nlToCr true ('\n' :: rest) = '\n' :: nlToCr true rest := by
  simp [nlToCr]

theorem nlToCr_nl (rest : List Char) :
    nlToCr false ('\n' :: rest) = '\r' :: nlToCr false rest := by
  simp [nlToCr]

theorem nlToCr_other (inQ : Bool) (c : Char) (rest : List Char)
    (h1 : c ≠ '"') (h2 : c ≠ '\n') :
    nlToCr inQ (c :: rest) = c :: nlToCr inQ rest := by
  simp [nlToCr, h1, h2]

theorem nlToCr_false_head_ne_nl (l : List Char) :
    (nlToCr false l).head? ≠ some '\n' := by
  cases l with
  | nil => simp [nlToCr]
  | cons c rest =>
    by_cases hq : c = '"'
    · subst hq
      rw [nlToCr_quote_open]
      simp
    · by_cases hn : c = '\n'
      · subst hn
        rw [nlToCr_nl]
        simp
      · rw [nlToCr_other false c rest hq hn]
        simp [hn]

theorem nlToCr_head_ne_quote (inQ : Bool) (l : List Char) (h : l.head? ≠ some '"') :
    (nlToCr inQ l).head? ≠ some '"' := by
  cases l with
  | nil => simp [nlToCr]
  | cons c rest =>
    have hq : c ≠ '"' := by simpa using h
    by_cases hn : c = '\n'
    · subst hn
      cases inQ with
      | true => rw [nlToCr_nl_in]; simp
      | false => rw [nlToCr_nl]; simp
    · rw [nlToCr_other inQ c rest hq hn]
      simp [hq]

theorem nlToCr_parseAux (n : Nat) : ∀ (s : List Char), s.length ≤ n →
    ∀ (inQ : Bool) (field : List Char) (row : Row) (rows : List Row),
    parseAux inQ field row rows (nlToCr inQ s) = parseAux inQ field row rows s := by
  induction n with
  | zero =>
    intro s hs inQ field row rows
    have : s = [] := List.length_eq_zero.mp (Nat.le_zero.mp hs)
    subst this
    rfl
  | succ n ih =>
    intro s hs inQ field row rows
    cases s with
    | nil => rfl
    | cons c rest =>
      have hrest : rest.length ≤ n := by
        simp only [List.length_cons] at hs
        omega
      by_cases hq : c = '"'
      · subst hq
        cases inQ with
        | false =>
          rw [nlToCr_quote_open, parseAux_quote_open, parseAux_quote_open]
          exact ih rest hrest true field row rows
        | true =>
          cases rest with
          | nil =>
            have h1 : nlToCr true ['"'] = ['"'] := rfl
            rw [h1]
          | cons c2 rest2 =>
            have hrest2 : rest2.length ≤ n := by
              simp only [List.length_cons] at hs
              omega
            by_cases hq2 : c2 = '"'
            · subst hq2
              rw [nlToCr_quote_esc, parseAux_quote_esc, parseAux_quote_esc]
              exact ih rest2 (by omega) true (field ++ ['"']) row rows
            · have h1 : (c2 :: rest2).head? ≠ some '"' := by simp [hq2]
              rw [nlToCr_quote_close _ h1]
              rw [parseAux_quote_close _ _ _ _ (nlToCr_head_ne_quote false _ h1)]
              rw [parseAux_quote_close _ _ _ _ h1]
              exact ih (c2 :: rest2) hrest false field row rows
      · by_cases hn : c = '\n'
        · subst hn
          cases inQ with
          | true =>
            rw [nlToCr_nl_in, parseAux_nl_in, parseAux_nl_in]
            exact ih rest hrest true (field ++ ['\n']) row rows
          | false =>
            rw [nlToCr_nl]
            rw [parseAux_cr _ _ _ _ (nlToCr_false_head_ne_nl rest)]
            rw [parseAux_nl]
            exact ih rest hrest false [] [] (pushRow rows (row ++ [field]))
        · by_cases hr : c = '\r'
          · subst hr
            cases inQ with
            | true =>
              rw [nlToCr_other true '\r' rest hq hn, parseAux_cr_in, parseAux_cr_in]
              exact ih rest hrest true (field ++ ['\r']) row rows
            | false =>
              rw [nlToCr_other false '\r' rest hq hn]
              cases rest with
              | nil =>
                have h1 : nlToCr false ([] : List Char) = [] := rfl
                rw [h1]
              | cons c2 rest2 =>
                have hrest2 : rest2.length ≤ n := by
                  simp only [List.length_cons] at hs
                  omega
                by_cases hn2 : c2 = '\n'
                · subst hn2
                  rw [parseAux_crnl]
                  rw [nlToCr_nl]
                  rw [parseAux_cr _ _ _ _ (by simp : ('\r' :: nlToCr false rest2).head? ≠ some '\n')]
                  rw [parseAux_cr _ _ _ _ (nlToCr_false_head_ne_nl rest2)]
                  have hdrop : pushRow (pushRow rows (row ++ [field])) ([] ++ [[]]) =
                      pushRow rows (row ++ [field]) := by
                    simp [pushRow, rowNonBlank, jsTrim]
                  rw [hdrop]
                  exact ih rest2 (by omega) false [] [] (pushRow rows (row ++ [field]))
                · have hh : (c2 :: rest2).head? ≠ some '\n' := by simp [hn2]
                  rw [parseAux_cr _ _ _ _ (nlToCr_false_head_ne_nl (c2 :: rest2))]
                  rw [parseAux_cr _ _ _ _ hh]
                  exact ih (c2 :: rest2) hrest false [] [] (pushRow rows (row ++ [field]))
          · by_cases hcm : c = ','
            · subst hcm
              rw [nlToCr_other inQ ',' rest hq hn]
              cases inQ with
              | true =>
                rw [parseAux_comma_in, parseAux_comma_in]
                exact ih rest hrest true (field ++ [',']) row rows
              | false =>
                rw [parseAux_comma, parseAux_comma]
                exact ih rest hrest false [] (row ++ [field]) rows
            · rw [nlToCr_other inQ c rest hq hn]
              cases inQ with
              | true =>
                rw [parseAux_any_in _ _ _ _ _ hq, parseAux_any_in _ _ _ _ _ hq]
                exact ih rest hrest true (field ++ [c]) row rows
              | false =>
                rw [parseAux_plain _ _ _ _ _ _ hq hcm hn hr,
                  parseAux_plain _ _ _ _ _ _ hq hcm hn hr]
                exact ih rest hrest false (field ++ [c]) row rows

/-- C10: replacing every row-separating (unquoted) newline by a lone
carriage return — converting to classic-Mac line endings — leaves the
sequence of rows produced by `parseCSVRows` unchanged, for every input. -/
theorem C10_classic_mac_line_endings (s : List Char) :
    parseCSVRows (nlToCr false s) = parseCSVRows s :=
  nlToCr_parseAux s.length s (Nat.le_refl _) false [] [] []

/-- C10 witness: a concrete text mixing all three line endings, a quoted
embedded newline and a blank line parses to the same rows after the
transform. -/
theorem C10_classic_mac_line_endings_witness :
    parseCSVRows (nlToCr false (strL "a,b\nc,\"x\ny\"\r\nz,w\n\nq,r")) =
      parseCSVRows (strL "a,b\nc,\"x\ny\"\r\nz,w\n\nq,r") :=
  C10_classic_mac_line_endings (strL "a,b\nc,\"x\ny\"\r\nz,w\n\nq,r")

end QrSpec
